import Mathlib

/-!
# Verification of the video-analysis core of the fact-checking website

A shallow embedding, in Lean 4, of the Multi-Analyzer Orchestration and
Credibility Aggregation Engine: the response parsers
(`parseAIDetectionResponse`, `parseManipulationResponse`,
`parseAuthenticityResponse`), the timeline-anomaly merger
(`mergeOverlappingAnomalies`), source de-duplication
(`deduplicateSources`), the credibility aggregator
(`calculateCredibilityScore`, `generateRecommendation`,
`aggregateAnalysisResults`) and the orchestrator
(`executeWithRetry`, `orchestrateVideoAnalysis`).

Modelling conventions:
* JavaScript numbers are modelled as exact rationals (`ℚ`); the values the
  code manipulates (integer confidences bounded by 100, short decimal
  timestamps, fixed weights 0.4/0.35/0.25) are all exactly representable.
* `Math.round` is `⌊x + 1/2⌋` (JS rounds half toward +∞), `Math.floor` is
  `⌊·⌋`.
* `Math.random()` draws are passed in explicitly as a sequence
  `rnd : ℕ → ℚ` of values in `[0, 1)`, consumed in call order.
* Promise results are `Except String α`: `.error` is a rejected promise
  carrying the error message, `.ok` a fulfilled one.  A JS `throw` inside a
  `try` block is `Except.error`; the `catch` handler is a `match` on it.
* Strings are Lean `String`s; the case-folding used by the keyword scans
  (`toLowerCase`) is modelled on the ASCII range (all keywords in the code
  are ASCII).
-/

/-! ## Data model (src/unnamed/part_003, analysis-aggregation) -/

/-- `TimelineAnomaly.type` enumeration. -/
inductive AnomalyType where
  | cut
  | insertion
  | deletion
  | temporal_inconsistency
  | quality_change
deriving DecidableEq

/-- A time-coded finding from the manipulation analyzer. -/
structure TimelineAnomaly where
  timestamp : ℚ
  duration : ℚ
  type : AnomalyType
  confidence : ℚ
  description : String
deriving DecidableEq

/-- A provisional source entry produced by the authenticity analyzer. -/
structure AuthenticitySource where
  url : Option String
  similarity : ℚ
  source : String
  verified : Bool
deriving DecidableEq

/-- The fixed indicator set of the AI-detection analyzer. -/
structure AIIndicators where
  facial_inconsistencies : ℚ
  temporal_artifacts : ℚ
  lighting_anomalies : ℚ
  compression_artifacts : ℚ
deriving DecidableEq

structure AIAnalysisResult where
  confidence : ℚ
  techniques : List String
  explanation : String
  indicators : AIIndicators
deriving DecidableEq

/-- The fixed indicator set of the manipulation analyzer.  In the source
these are occurrence counters (incremented by `++`), hence naturals. -/
structure ManipIndicators where
  frame_cuts : ℕ
  object_insertion : ℕ
  background_changes : ℕ
  audio_sync_issues : ℕ
deriving DecidableEq

structure ManipulationAnalysisResult where
  confidence : ℚ
  anomalies : List TimelineAnomaly
  explanation : String
  indicators : ManipIndicators
deriving DecidableEq

structure AuthMetadata where
  creation_date : Option String
  device_info : Option String
  location : Option String
  compression_history : List String
deriving DecidableEq

structure AuthenticityAnalysisResult where
  confidence : ℚ
  sources : List AuthenticitySource
  metadata : AuthMetadata
  explanation : String
deriving DecidableEq

structure OverallVerdict where
  credibilityScore : ℤ
  recommendation : String
  summary : String
deriving DecidableEq

structure VideoAnalysisResults where
  aiGenerated : AIAnalysisResult
  manipulation : ManipulationAnalysisResult
  authenticity : AuthenticityAnalysisResult
  overall : OverallVerdict
deriving DecidableEq

/-! ## Number helpers -/

/-- JavaScript `Math.round`: round half toward positive infinity. -/
def jsRound (q : ℚ) : ℤ := ⌊q + 1 / 2⌋

/-- Decimal rendering of a nonnegative rational whose denominator divides a
power of ten, as JavaScript `Number.prototype.toString` renders the floats
the parsers produce (`65 ↦ "65"`, `3/2 ↦ "1.5"`).  `powTen` searches for the
least exponent `k ≤ 30` with `den ∣ 10 ^ k`. -/
def powTenFor (den : ℚ) : ℕ := Id.run do
  for k in List.range 31 do
    if den.den ∣ (10 : ℕ) ^ k then
      return k
  return 0

def natDigits (n : ℕ) : String := toString n

/-- Left-pad a numeral string with zeros to length `k`. -/
def padZeros (s : String) (k : ℕ) : String :=
  String.mk (List.replicate (k - s.length) '0') ++ s

def jsNumToString (q : ℚ) : String :=
  if q.den = 1 then toString q.num
  else
    let k := powTenFor q
    let n := q.num.natAbs
    let d := q.den
    let scaled := n * 10 ^ k / d
    let sign := if q.num < 0 then "-" else ""
    sign ++ natDigits (scaled / 10 ^ k) ++ "." ++ padZeros (natDigits (scaled % 10 ^ k)) k

/-! ## Credibility aggregation (src/unnamed/part_003) -/

/-- `calculateCredibilityScore` from the aggregation module: weighted
average of the inverted AI and manipulation confidences and the direct
authenticity confidence, rounded then clamped to `[0, 100]`. -/
def calculateCredibilityScore (aiResult : AIAnalysisResult)
    (manipulationResult : ManipulationAnalysisResult)
    (authenticityResult : AuthenticityAnalysisResult) : ℤ :=
  let aiCredibility : ℚ := 100 - aiResult.confidence
  let manipulationCredibility : ℚ := 100 - manipulationResult.confidence
  let authenticityCredibility : ℚ := authenticityResult.confidence
  let weightedScore : ℚ :=
    aiCredibility * 0.4 + manipulationCredibility * 0.35 +
      authenticityCredibility * 0.25
  max 0 (min 100 (jsRound weightedScore))

/-- `generateRecommendation`: the tier text chosen by the score thresholds.
The three result arguments are accepted and ignored, as in the source. -/
def generateRecommendation (credibilityScore : ℤ)
    (_aiResult : AIAnalysisResult)
    (_manipulationResult : ManipulationAnalysisResult)
    (_authenticityResult : AuthenticityAnalysisResult) : String :=
  if credibilityScore ≥ 80 then
    "HIGH CREDIBILITY: Video appears authentic with minimal signs of manipulation or AI generation."
  else if credibilityScore ≥ 60 then
    "MODERATE CREDIBILITY: Video shows some concerning indicators. Additional verification recommended."
  else if credibilityScore ≥ 40 then
    "LOW CREDIBILITY: Video shows significant signs of manipulation or AI generation. Use with caution."
  else
    "VERY LOW CREDIBILITY: Video likely contains AI-generated content or significant manipulations. Not recommended for use."

/-- `generateAnalysisSummary`: three banded qualitative clauses joined after
the numeric score. -/
def generateAnalysisSummary (aiResult : AIAnalysisResult)
    (manipulationResult : ManipulationAnalysisResult)
    (authenticityResult : AuthenticityAnalysisResult)
    (credibilityScore : ℤ) : String :=
  let aiPart : String :=
    if aiResult.confidence > 70 then
      "High likelihood of AI generation (" ++ jsNumToString aiResult.confidence ++ "% confidence)"
    else if aiResult.confidence > 40 then "Moderate signs of AI generation detected"
    else "Low likelihood of AI generation"
  let manipPart : String :=
    if manipulationResult.confidence > 70 then "significant video manipulation detected"
    else if manipulationResult.confidence > 40 then "some video editing indicators found"
    else "minimal signs of manipulation"
  let authPart : String :=
    if authenticityResult.confidence > 70 then "strong authenticity indicators present"
    else if authenticityResult.confidence > 40 then "moderate authenticity verification"
    else "limited authenticity verification possible"
  "Analysis complete with " ++ toString credibilityScore ++ "% credibility score. " ++
    aiPart ++ ", " ++ manipPart ++ ", " ++ authPart ++ "."

/-- `aggregateAnalysisResults`: assemble the final result object. -/
def aggregateAnalysisResults (aiResult : AIAnalysisResult)
    (manipulationResult : ManipulationAnalysisResult)
    (authenticityResult : AuthenticityAnalysisResult) : VideoAnalysisResults :=
  let credibilityScore := calculateCredibilityScore aiResult manipulationResult authenticityResult
  let recommendation :=
    generateRecommendation credibilityScore aiResult manipulationResult authenticityResult
  let summary :=
    generateAnalysisSummary aiResult manipulationResult authenticityResult credibilityScore
  { aiGenerated := aiResult
    manipulation := manipulationResult
    authenticity := authenticityResult
    overall :=
      { credibilityScore := credibilityScore
        recommendation := recommendation
        summary := summary } }

/-- The aggregation formula exactly as the specification words it:
`round(clamp((100−aiConf)*0.40 + (100−manipConf)*0.35 + authConf*0.25, 0, 100))`
(clamp applied before rounding, unlike the code, which rounds first). -/
def specCredibilityScore (aiConf manipConf authConf : ℚ) : ℤ :=
  jsRound (max 0 (min 100 ((100 - aiConf) * 0.4 + (100 - manipConf) * 0.35 + authConf * 0.25)))

/-! Sample records used to instantiate hypotheses at concrete inputs. -/

def sampleAIIndicators : AIIndicators :=
  { facial_inconsistencies := 0, temporal_artifacts := 0
    lighting_anomalies := 0, compression_artifacts := 0 }

def sampleAIResult (c : ℚ) : AIAnalysisResult :=
  { confidence := c, techniques := [], explanation := "e", indicators := sampleAIIndicators }

def sampleManipResult (c : ℚ) : ManipulationAnalysisResult :=
  { confidence := c, anomalies := [], explanation := "e"
    indicators := { frame_cuts := 0, object_insertion := 0
                    background_changes := 0, audio_sync_issues := 0 } }

def sampleAuthResult (c : ℚ) : AuthenticityAnalysisResult :=
  { confidence := c, sources := [], explanation := "e"
    metadata := { creation_date := none, device_info := none
                  location := none, compression_history := [] } }

/-! ## Timeline anomaly merging (src/lib/url-validator.ts, manipulation-detection) -/

/-- The comparator `(a, b) => a.timestamp - b.timestamp` of the source's
stable sort, as the total preorder it induces. -/
def tsLe (a b : TimelineAnomaly) : Prop := a.timestamp ≤ b.timestamp

instance : DecidableRel tsLe :=
  fun a b => inferInstanceAs (Decidable (a.timestamp ≤ b.timestamp))

instance : IsTotal TimelineAnomaly tsLe := ⟨fun a b => le_total a.timestamp b.timestamp⟩

instance : IsTrans TimelineAnomaly tsLe := ⟨fun _ _ _ h h2 => le_trans h h2⟩

/-- The record built when `mergeOverlappingAnomalies` merges `next` into
`current`. -/
def mergeTwoAnomalies (current next : TimelineAnomaly) : TimelineAnomaly :=
  { timestamp := current.timestamp
    duration := max (next.timestamp + next.duration - current.timestamp) current.duration
    type := if current.confidence > next.confidence then current.type else next.type
    confidence := max current.confidence next.confidence
    description := current.description ++ "; " ++ next.description }

/-- The accumulator loop of `mergeOverlappingAnomalies`: fold the sorted
tail into `current`, emitting `current` whenever the next anomaly starts
more than 2 seconds after `current` ends. -/
def mergeLoop : TimelineAnomaly → List TimelineAnomaly → List TimelineAnomaly
  | current, [] => [current]
  | current, next :: rest =>
    if next.timestamp ≤ current.timestamp + current.duration + 2 then
      mergeLoop (mergeTwoAnomalies current next) rest
    else
      current :: mergeLoop next rest

/-- `mergeOverlappingAnomalies`: stable-sort by timestamp, then run the
merge loop (returns `[]` on the empty list, as the early return does). -/
def mergeOverlappingAnomalies (anomalies : List TimelineAnomaly) : List TimelineAnomaly :=
  match List.insertionSort tsLe anomalies with
  | [] => []
  | x :: xs => mergeLoop x xs

/-- Separation relation between consecutive output anomalies: the later one
starts strictly after the earlier one's end plus the 2-second tolerance. -/
def anomalyGap (a b : TimelineAnomaly) : Prop :=
  a.timestamp + a.duration + 2 < b.timestamp

/-! ## Orchestration (src/lib/analysis-orchestration.ts)

The inference calls are abstracted: each analyzer is a function
`ℕ → Except String α` giving the outcome of its i-th attempt (a timeout or
rejection is `.error msg`, a resolved analysis `.ok result`).  The
`analysisTypes` option is the three Booleans; progress reporting is purely
observational and not modelled. -/

/-- `createDefaultAIResult` (orchestration module). -/
def createDefaultAIResult (errorMessage : String) : AIAnalysisResult :=
  { confidence := 0, techniques := [], explanation := errorMessage
    indicators := sampleAIIndicators }

/-- `createDefaultManipulationResult` (orchestration module). -/
def createDefaultManipulationResult (errorMessage : String) : ManipulationAnalysisResult :=
  { confidence := 0, anomalies := [], explanation := errorMessage
    indicators := { frame_cuts := 0, object_insertion := 0
                    background_changes := 0, audio_sync_issues := 0 } }

/-- `createDefaultAuthenticityResult` (orchestration module). -/
def createDefaultAuthenticityResult (errorMessage : String) : AuthenticityAnalysisResult :=
  { confidence := 0, sources := []
    metadata := { creation_date := none, device_info := none
                  location := none, compression_history := [] }
    explanation := errorMessage }

/-- `createDefaultAnalysisResults` (orchestration module): the complete
default object returned from the catch-all failure path. -/
def createDefaultAnalysisResults (errorMessage : String) : VideoAnalysisResults :=
  { aiGenerated := createDefaultAIResult errorMessage
    manipulation := createDefaultManipulationResult errorMessage
    authenticity := createDefaultAuthenticityResult errorMessage
    overall :=
      { credibilityScore := 0
        recommendation := "Analysis could not be completed"
        summary := errorMessage } }

/-- The retry loop of `executeWithRetry`, attempts `i, i+1, ...` with
`rem` retries remaining: first success wins, otherwise the error of the
last attempt (`lastError`) is thrown. -/
def executeWithRetryAux (attempt : ℕ → Except String α) : ℕ → ℕ → Except String α
  | i, 0 => attempt i
  | i, rem + 1 =>
    match attempt i with
    | Except.ok v => Except.ok v
    | Except.error _ => executeWithRetryAux attempt (i + 1) rem

/-- `executeWithRetry`: up to `maxRetries` additional attempts after the
first; the backoff delay affects timing only and is not modelled. -/
def executeWithRetry (attempt : ℕ → Except String α) (maxRetries : ℕ) : Except String α :=
  executeWithRetryAux attempt 0 maxRetries

/-- JS template-literal stringification of an `Error` object
(`` `${err}` `` yields `"Error: <message>"`), as used when a rejection
reason is interpolated into `"Analysis failed: ${result.reason}"`. -/
def errString (e : String) : String := "Error: " ++ e

/-- The result-processing phase of `orchestrateVideoAnalysis`, applied to
the settled promise outcomes (`none` = analyzer not requested): collect
errors, throw when every section is null, otherwise fill defaults and
aggregate; the surrounding catch converts the throw into the complete
default results. -/
def orchestrateProcessSettled
    (aiSettled : Option (Except String AIAnalysisResult))
    (manipulationSettled : Option (Except String ManipulationAnalysisResult))
    (authenticitySettled : Option (Except String AuthenticityAnalysisResult)) :
    Except String VideoAnalysisResults :=
  let aiGenerated : Option AIAnalysisResult :=
    match aiSettled with
    | some (Except.ok v) => some v
    | _ => none
  let manipulation : Option ManipulationAnalysisResult :=
    match manipulationSettled with
    | some (Except.ok v) => some v
    | _ => none
  let authenticity : Option AuthenticityAnalysisResult :=
    match authenticitySettled with
    | some (Except.ok v) => some v
    | _ => none
  let errors : List String :=
    (match aiSettled with
      | some (Except.error e) => ["Analysis failed: " ++ errString e]
      | _ => []) ++
    (match manipulationSettled with
      | some (Except.error e) => ["Analysis failed: " ++ errString e]
      | _ => []) ++
    (match authenticitySettled with
      | some (Except.error e) => ["Analysis failed: " ++ errString e]
      | _ => [])
  let body : Except String VideoAnalysisResults :=
    if aiGenerated.isNone ∧ manipulation.isNone ∧ authenticity.isNone then
      Except.error ("All analyses failed: " ++ String.intercalate "; " errors)
    else
      Except.ok (aggregateAnalysisResults
        (aiGenerated.getD (createDefaultAIResult "AI detection analysis failed"))
        (manipulation.getD (createDefaultManipulationResult "Manipulation detection analysis failed"))
        (authenticity.getD (createDefaultAuthenticityResult "Authenticity verification analysis failed")))
  match body with
  | Except.ok r => Except.ok r
  | Except.error e => Except.ok (createDefaultAnalysisResults ("Analysis failed: " ++ e))

/-- `orchestrateVideoAnalysis`: run the requested analyzers (each wrapped
in `executeWithRetry`), then process the settled outcomes.  The returned
`Except` is the caller's view: `.error` would be an exception escaping the
function. -/
def orchestrateVideoAnalysis (aiOn manipulationOn authenticityOn : Bool)
    (aiAttempt : ℕ → Except String AIAnalysisResult)
    (manipulationAttempt : ℕ → Except String ManipulationAnalysisResult)
    (authenticityAttempt : ℕ → Except String AuthenticityAnalysisResult)
    (retryAttempts : ℕ) : Except String VideoAnalysisResults :=
  orchestrateProcessSettled
    (if aiOn then some (executeWithRetry aiAttempt retryAttempts) else none)
    (if manipulationOn then some (executeWithRetry manipulationAttempt retryAttempts) else none)
    (if authenticityOn then some (executeWithRetry authenticityAttempt retryAttempts) else none)

/-! Concrete anomalies exercising a confidence tie in the merge. -/

def tieAnomalyA : TimelineAnomaly :=
  { timestamp := 0, duration := 5, type := AnomalyType.cut
    confidence := 50, description := "a" }

def tieAnomalyB : TimelineAnomaly :=
  { timestamp := 1, duration := 1, type := AnomalyType.insertion
    confidence := 50, description := "b" }

/-! ## Source de-duplication (src/lib/video-preprocessing.ts, authenticity-verification) -/

/-- JS `String.prototype.toLowerCase`, on the ASCII range. -/
def jsToLower (s : String) : String := String.map Char.toLower s

/-- The `Map` key used by `deduplicateSources`: the lower-cased source name. -/
def sourceKey (s : AuthenticitySource) : String := jsToLower s.source

/-- Key-distinctness of two source entries. -/
def sourceKeyNe (a b : AuthenticitySource) : Prop := sourceKey a ≠ sourceKey b

/-- One step of `deduplicateSources`' loop: a `Map.set` that keeps insertion
position — replace the entry under the same key when the new similarity is
strictly higher, otherwise append the new entry at the end. -/
def insertSourceIntoMap (acc : List AuthenticitySource) (s : AuthenticitySource) :
    List AuthenticitySource :=
  if acc.any (fun e => sourceKey e = sourceKey s) then
    acc.map (fun e =>
      if sourceKey e = sourceKey s ∧ s.similarity > e.similarity then s else e)
  else
    acc ++ [s]

/-- The insertion-ordered map built by `deduplicateSources`' for-loop. -/
def dedupLoop : List AuthenticitySource → List AuthenticitySource → List AuthenticitySource
  | acc, [] => acc
  | acc, s :: rest => dedupLoop (insertSourceIntoMap acc s) rest

/-- The comparator `(a, b) => b.similarity - a.similarity` of the final
sort: nonincreasing similarity. -/
def simGe (a b : AuthenticitySource) : Prop := b.similarity ≤ a.similarity

instance : DecidableRel simGe :=
  fun a b => inferInstanceAs (Decidable (b.similarity ≤ a.similarity))

instance : IsTotal AuthenticitySource simGe := ⟨fun a b => le_total b.similarity a.similarity⟩

instance : IsTrans AuthenticitySource simGe := ⟨fun _ _ _ h h2 => le_trans h2 h⟩

/-- `deduplicateSources`: de-duplicate by lower-cased source name keeping
the higher similarity, then stable-sort by descending similarity. -/
def deduplicateSources (sources : List AuthenticitySource) : List AuthenticitySource :=
  List.insertionSort simGe (dedupLoop [] sources)

/-- `[...new Set(xs)]`: de-duplication keeping first occurrences. -/
def jsSetDedupAux : List String → List String → List String
  | _, [] => []
  | seen, x :: xs =>
    if x ∈ seen then jsSetDedupAux seen xs else x :: jsSetDedupAux (x :: seen) xs

def jsSetDedup (l : List String) : List String := jsSetDedupAux [] l

/-- The `results` array of fulfilled variant outcomes collected by
`performAuthenticityVerification` (order: metadata, contextual, source). -/
def authResultsList (metadataResult contextualResult sourceResult :
    Except String AuthenticityAnalysisResult) : List AuthenticityAnalysisResult :=
  (match metadataResult with | Except.ok v => [v] | Except.error _ => []) ++
  (match contextualResult with | Except.ok v => [v] | Except.error _ => []) ++
  (match sourceResult with | Except.ok v => [v] | Except.error _ => [])

/-- `allSources`: the union of the fulfilled variants' source lists. -/
def authVariantSources (metadataResult contextualResult sourceResult :
    Except String AuthenticityAnalysisResult) : List AuthenticitySource :=
  (authResultsList metadataResult contextualResult sourceResult).flatMap
    AuthenticityAnalysisResult.sources

/-- `performAuthenticityVerification`, folded over the three settled
variant outcomes: average the confidences, de-duplicate the source union,
merge metadata (first hit per field, set-de-duplicated compression
history); with zero fulfilled variants the internal throw is caught and the
default error result is returned. -/
def performAuthenticityVerification (metadataResult contextualResult sourceResult :
    Except String AuthenticityAnalysisResult) : AuthenticityAnalysisResult :=
  match authResultsList metadataResult contextualResult sourceResult with
  | [] =>
    { confidence := 0
      sources := []
      metadata := { creation_date := none, device_info := none
                    location := none, compression_history := [] }
      explanation := "Authenticity verification failed: All authenticity verification analyses failed" }
  | r :: rs =>
    let results := r :: rs
    let avgConfidence : ℚ :=
      (results.map AuthenticityAnalysisResult.confidence).sum / results.length
    { confidence := ((jsRound avgConfidence : ℤ) : ℚ)
      sources := deduplicateSources
        (authVariantSources metadataResult contextualResult sourceResult)
      metadata :=
        { creation_date := (results.filterMap (fun t => t.metadata.creation_date)).head?
          device_info := (results.filterMap (fun t => t.metadata.device_info)).head?
          location := (results.filterMap (fun t => t.metadata.location)).head?
          compression_history :=
            jsSetDedup (results.flatMap (fun t => t.metadata.compression_history)) }
      explanation := "Combined Authenticity Verification Analysis:\n\n" ++
        String.intercalate "\n\n" (results.enum.map
          (fun p => "Analysis " ++ toString (p.1 + 1) ++ ": " ++ p.2.explanation)) }

/-! ## Response parsing: shared text utilities

The regex heuristics of the three parsers are embedded as explicit
scanners over `List Char`.  Matching is leftmost (every start position is
tried in order) and greedy; for the patterns at hand greedy matching with
the single backtracking point of `([^\n\r.]+)` after `[:\s]*` reproduces
the JS engine's behaviour, because every other adjacent pair of
sub-patterns draws from disjoint character classes. -/

/-- The ASCII part of the regex class `\s`. -/
def isWsChar (c : Char) : Bool :=
  c = ' ' || c = '\t' || c = '\n' || c = '\r' || c = '\x0b' || c = '\x0c'

def isDigitChar (c : Char) : Bool := c.isDigit

def lowerChars (s : List Char) : List Char := s.map Char.toLower

/-- `hay.includes(needle)` on char lists. -/
def hasSubstring : List Char → List Char → Bool
  | [], needle => needle.isEmpty
  | c :: t, needle => needle.isPrefixOf (c :: t) || hasSubstring t needle

/-- `response.toLowerCase().includes(kw.toLowerCase())`. -/
def containsKeyword (s : List Char) (kw : String) : Bool :=
  hasSubstring (lowerChars s) (lowerChars kw.toList)

/-- Case-insensitive literal prefix match; `key` is given lower-case.
Returns the remaining suffix on success. -/
def ciPrefix : List Char → List Char → Option (List Char)
  | [], s => some s
  | _ :: _, [] => none
  | k :: ks, c :: cs => if Char.toLower c = k then ciPrefix ks cs else none

def digitsVal (l : List Char) : ℕ :=
  l.foldl (fun acc c => acc * 10 + (c.toNat - 48)) 0

/-- `[:\s]*`. -/
def skipColonWs (s : List Char) : List Char :=
  s.dropWhile (fun c => c = ':' || isWsChar c)

/-- Match `key[:\s]*(\d+)` at the current position (the optional trailing
`%` does not affect the capture). -/
def matchKeyNum (key : List Char) (s : List Char) : Option ℕ :=
  match ciPrefix key s with
  | none => none
  | some rest =>
    let ds := (skipColonWs rest).takeWhile isDigitChar
    if ds.isEmpty then none else some (digitsVal ds)

/-- Match `(\d+)%?\s*(?:k₁|k₂|…)` at the current position. -/
def matchNumKey (keys : List (List Char)) (s : List Char) : Option ℕ :=
  let ds := s.takeWhile isDigitChar
  if ds.isEmpty then none
  else
    let rest := s.dropWhile isDigitChar
    let rest2 := match rest with
      | '%' :: r => r
      | _ => rest
    let rest3 := rest2.dropWhile isWsChar
    if keys.any (fun k => (ciPrefix k rest3).isSome) then some (digitsVal ds) else none

/-- Leftmost match: try the position matcher on every suffix in order. -/
def scanFirst (f : List Char → Option α) : List Char → Option α
  | [] => f []
  | c :: t =>
    match f (c :: t) with
    | some v => some v
    | none => scanFirst f t

/-- `n ↦ min 100 (max 0 n)` over the captured digits, 0 when no pattern
matched (`parseInt` of a digit capture is never `NaN`). -/
def clampConf (o : Option ℕ) : ℕ :=
  match o with
  | some n => min 100 n
  | none => 0

/-! ## parseAIDetectionResponse (src/lib/ai-detection.ts) -/

/-- The matcher chain
`confidence[:\s]*(\d+)%? || (\d+)%?\s*confidence || score[:\s]*(\d+)`. -/
def aiConfidenceRaw (s : List Char) : Option ℕ :=
  (scanFirst (matchKeyNum "confidence".toList) s).orElse fun _ =>
    (scanFirst (matchNumKey ["confidence".toList]) s).orElse fun _ =>
      scanFirst (matchKeyNum "score".toList) s

def aiConfidence (response : String) : ℕ := clampConf (aiConfidenceRaw response.toList)

def aiTechniqueKeywords : List String :=
  ["deepfake", "face swap", "voice synthesis", "style transfer",
   "GANs", "neural network", "AI generation", "synthetic media",
   "face replacement", "digital manipulation", "artificial generation"]

/-- The shape returned by `parseAIDetectionResponse`. -/
structure AIDetectionParsed where
  confidence : ℚ
  techniques : List String
  indicators : AIIndicators
deriving DecidableEq

/-- `parseAIDetectionResponse`: confidence extraction, technique keyword
scan, and the four keyword-triggered indicators
`Math.min(100, confidence + jitter)` (no lower clamp).  `rnd k` is the
k-th `Math.random()` draw; draws are consumed in the order the keyword
branches fire. -/
def parseAIDetectionResponse (response : String) (rnd : ℕ → ℚ) : AIDetectionParsed :=
  let s := response.toList
  let confidence := aiConfidence response
  let techniques := aiTechniqueKeywords.filter (fun kw => containsKeyword s kw)
  let hasFacial := containsKeyword s "facial" || containsKeyword s "face"
  let hasTemporal := containsKeyword s "temporal" || containsKeyword s "flicker"
  let hasLighting := containsKeyword s "lighting" || containsKeyword s "shadow"
  let hasCompression := containsKeyword s "compression" || containsKeyword s "artifact"
  let facial : ℚ :=
    if hasFacial then min 100 ((confidence : ℚ) + rnd 0 * 20 - 10) else 0
  let i1 := if hasFacial then 1 else 0
  let temporal : ℚ :=
    if hasTemporal then min 100 ((confidence : ℚ) + rnd i1 * 15 - 7) else 0
  let i2 := if hasTemporal then i1 + 1 else i1
  let lighting : ℚ :=
    if hasLighting then min 100 ((confidence : ℚ) + rnd i2 * 15 - 7) else 0
  let i3 := if hasLighting then i2 + 1 else i2
  let compression : ℚ :=
    if hasCompression then min 100 ((confidence : ℚ) + rnd i3 * 10 - 5) else 0
  { confidence := (confidence : ℚ)
    techniques := techniques
    indicators :=
      { facial_inconsistencies := facial
        temporal_artifacts := temporal
        lighting_anomalies := lighting
        compression_artifacts := compression } }

/-! ## parseManipulationResponse (src/lib/url-validator.ts) -/

/-- `confidence[:\s]*(\d+)%? || (\d+)%?\s*confidence`. -/
def manipConfidenceRaw (s : List Char) : Option ℕ :=
  (scanFirst (matchKeyNum "confidence".toList) s).orElse fun _ =>
    scanFirst (matchNumKey ["confidence".toList]) s

def manipConfidence (response : String) : ℕ := clampConf (manipConfidenceRaw response.toList)

/-- One attempt of `/(\d+):(\d+)|(\d+\.?\d*)\s*(?:seconds?|s)/gi` at the
current position; on success returns the timestamp in seconds and the
suffix after the match. -/
def matchTimestampAt (s : List Char) : Option (ℚ × List Char) :=
  let d1 := s.takeWhile isDigitChar
  let r1 := s.dropWhile isDigitChar
  if d1.isEmpty then none
  else
    let branch1 : Option (ℚ × List Char) :=
      match r1 with
      | ':' :: r2 =>
        let d2 := r2.takeWhile isDigitChar
        if d2.isEmpty then none
        else some ((digitsVal d1 : ℚ) * 60 + (digitsVal d2 : ℚ), r2.dropWhile isDigitChar)
      | _ => none
    match branch1 with
    | some v => some v
    | none =>
      let fracRest : List Char × List Char :=
        match r1 with
        | '.' :: rr => (rr.takeWhile isDigitChar, rr.dropWhile isDigitChar)
        | _ => ([], r1)
      let value : ℚ := (digitsVal d1 : ℚ) +
        (digitsVal fracRest.1 : ℚ) / (10 : ℚ) ^ fracRest.1.length
      let r3 := fracRest.2.dropWhile isWsChar
      match ciPrefix "second".toList r3 with
      | some rest =>
        match rest with
        | c :: t => if Char.toLower c = 's' then some (value, t) else some (value, rest)
        | [] => some (value, [])
      | none =>
        match r3 with
        | c :: t => if Char.toLower c = 's' then some (value, t) else none
        | [] => none

/-- The `exec` loop: successive leftmost non-overlapping matches. -/
def extractTimestampsAux : ℕ → List Char → List ℚ
  | 0, _ => []
  | _ + 1, [] => []
  | fuel + 1, c :: t =>
    match matchTimestampAt (c :: t) with
    | some (v, rest) => v :: extractTimestampsAux fuel rest
    | none => extractTimestampsAux fuel t

def extractTimestamps (s : List Char) : List ℚ :=
  extractTimestampsAux (s.length + 1) s

/-- `indexOf`: char index of the first occurrence, `-1` when absent. -/
def jsIndexOfAux (needle : List Char) : List Char → ℕ → Option ℕ
  | [], i => if needle.isEmpty then some i else none
  | c :: t, i => if needle.isPrefixOf (c :: t) then some i else jsIndexOfAux needle t (i + 1)

def jsIndexOf (hay needle : List Char) : ℤ :=
  match jsIndexOfAux needle hay 0 with
  | some i => (i : ℤ)
  | none => -1

/-- `s.substring(a)` (negative start clamps to 0). -/
def jsSubstringFrom (s : List Char) (a : ℤ) : List Char := s.drop a.toNat

/-- `s.substring(a, b)`: clamp both ends into `[0, length]`, swap if
reversed. -/
def jsSubstringRange (s : List Char) (a b : ℤ) : List Char :=
  let len : ℤ := s.length
  let a2 := max 0 (min a len)
  let b2 := max 0 (min b len)
  ((s.take (max a2 b2).toNat).drop (min a2 b2).toNat)

/-- The classification context around a timestamp: the source concatenates
`response.substring(max(0, idx − 100))` (a suffix reaching to the end of
the string) with `response.substring(idx, idx + 100)`, where `idx` is the
index of the timestamp's decimal rendering (−1 when absent), and lowers
the result. -/
def anomalyContext (s : List Char) (t : ℚ) : List Char :=
  let idx := jsIndexOf s (jsNumToString t).toList
  lowerChars (jsSubstringFrom s (max 0 (idx - 100)) ++ jsSubstringRange s idx (idx + 100))

/-- Keyword classification of one timestamp's context: anomaly type,
description, and which indicator counter to bump (0 = none). -/
def classifyAnomaly (ctx : List Char) : AnomalyType × String × ℕ :=
  if hasSubstring ctx "cut".toList || hasSubstring ctx "transition".toList then
    (AnomalyType.cut, "Frame cut or transition detected", 1)
  else if hasSubstring ctx "object".toList || hasSubstring ctx "insertion".toList ||
      hasSubstring ctx "removal".toList then
    (AnomalyType.insertion, "Object manipulation detected", 2)
  else if hasSubstring ctx "background".toList || hasSubstring ctx "composit".toList then
    (AnomalyType.insertion, "Background change detected", 3)
  else if hasSubstring ctx "audio".toList || hasSubstring ctx "sync".toList then
    (AnomalyType.temporal_inconsistency, "Audio-video sync issue detected", 4)
  else
    (AnomalyType.temporal_inconsistency, "Temporal anomaly detected", 0)

def bumpIndicator (ind : ManipIndicators) : ℕ → ManipIndicators
  | 1 => { ind with frame_cuts := ind.frame_cuts + 1 }
  | 2 => { ind with object_insertion := ind.object_insertion + 1 }
  | 3 => { ind with background_changes := ind.background_changes + 1 }
  | 4 => { ind with audio_sync_issues := ind.audio_sync_issues + 1 }
  | _ => ind

def zeroManipIndicators : ManipIndicators :=
  { frame_cuts := 0, object_insertion := 0
    background_changes := 0, audio_sync_issues := 0 }

/-- The timestamps kept by the `timestamp <= videoDuration` guard. -/
def keptTimestamps (response : String) (videoDuration : ℚ) : List ℚ :=
  (extractTimestamps response.toList).filter (fun t => t ≤ videoDuration)

/-- The anomalies pushed for the kept timestamps; the i-th pushed anomaly
consumes the i-th `Math.random()` draw. -/
def manipTimestampAnomalies (response : String) (videoDuration : ℚ)
    (rnd : ℕ → ℚ) : List TimelineAnomaly :=
  (keptTimestamps response videoDuration).enum.map (fun p =>
    let cls := classifyAnomaly (anomalyContext response.toList p.2)
    { timestamp := p.2
      duration := 1
      type := cls.1
      confidence := min 100 ((manipConfidence response : ℚ) + rnd p.1 * 20 - 10)
      description := cls.2.1 })

/-- The indicator counters accumulated over the kept timestamps. -/
def manipIndicatorsOf (response : String) (videoDuration : ℚ) : ManipIndicators :=
  (keptTimestamps response videoDuration).foldl
    (fun ind t => bumpIndicator ind (classifyAnomaly (anomalyContext response.toList t)).2.2)
    zeroManipIndicators

/-- Total of the four manipulation indicator counters. -/
def manipIndicatorsSum (ind : ManipIndicators) : ℕ :=
  ind.frame_cuts + ind.object_insertion + ind.background_changes + ind.audio_sync_issues

/-- The shape returned by `parseManipulationResponse`. -/
structure ManipulationParsed where
  confidence : ℚ
  anomalies : List TimelineAnomaly
  indicators : ManipIndicators
deriving DecidableEq

/-- `parseManipulationResponse`: confidence, timestamp-derived anomalies
(classified by context keywords), and — when no anomaly was produced and
confidence exceeds 50 — `floor(confidence/25)` evenly spaced synthesized
anomalies. -/
def parseManipulationResponse (response : String) (videoDuration : ℚ)
    (rnd : ℕ → ℚ) : ManipulationParsed :=
  let confidence := manipConfidence response
  let tsAnomalies := manipTimestampAnomalies response videoDuration rnd
  let anomalies :=
    if tsAnomalies.length = 0 ∧ confidence > 50 then
      let numAnomalies := confidence / 25
      (List.range numAnomalies).map (fun i =>
        { timestamp := (videoDuration / ((numAnomalies : ℚ) + 1)) * ((i : ℚ) + 1)
          duration := 2
          type := AnomalyType.temporal_inconsistency
          confidence := (confidence : ℚ)
          description := "General manipulation indicator detected" })
    else tsAnomalies
  { confidence := (confidence : ℚ)
    anomalies := anomalies
    indicators := manipIndicatorsOf response videoDuration }

/-! ## parseAuthenticityResponse (src/lib/video-preprocessing.ts) -/

/-- `confidence[:\s]*(\d+)%? || (\d+)%?\s*(?:authentic|genuine|original) ||
authenticity[:\s]*(\d+)%?`. -/
def authConfidenceRaw (s : List Char) : Option ℕ :=
  (scanFirst (matchKeyNum "confidence".toList) s).orElse fun _ =>
    (scanFirst (matchNumKey
      ["authentic".toList, "genuine".toList, "original".toList]) s).orElse fun _ =>
      scanFirst (matchKeyNum "authenticity".toList) s

def authConfidence (response : String) : ℕ := clampConf (authConfidenceRaw response.toList)

/-- Match one of the lower-cased alternation keys at the position. -/
def ciPrefixAny (keys : List (List Char)) (s : List Char) : Option (List Char) :=
  match keys with
  | [] => none
  | k :: ks =>
    match ciPrefix k s with
    | some rest => some rest
    | none => ciPrefixAny ks s

/-- Match `[0-9]{4}[-\/][0-9]{1,2}[-\/][0-9]{1,2}` at the position,
returning the captured characters. -/
def matchDateBody (s : List Char) : Option (List Char) :=
  let ds := s.takeWhile isDigitChar
  if ds.length = 4 then
    match s.drop 4 with
    | sep1 :: r1 =>
      if sep1 = '-' || sep1 = '/' then
        let m := r1.takeWhile isDigitChar
        if m.length = 0 ∨ m.length ≥ 3 then none
        else
          match r1.drop m.length with
          | sep2 :: r2 =>
            if sep2 = '-' || sep2 = '/' then
              let day := (r2.takeWhile isDigitChar).take 2
              if day.isEmpty then none
              else some (ds ++ [sep1] ++ m ++ [sep2] ++ day)
            else none
          | [] => none
      else none
    | [] => none
  else none

/-- `(?:created?|date)[:\s]*(date-body)` at the position. -/
def matchDateAt (s : List Char) : Option (List Char) :=
  let keyRest : Option (List Char) :=
    match ciPrefix "create".toList s with
    | some rest =>
      match rest with
      | c :: t => if Char.toLower c = 'd' then some t else some rest
      | [] => some []
    | none => ciPrefix "date".toList s
  match keyRest with
  | none => none
  | some rest => matchDateBody (skipColonWs rest)

/-- Greedy `[:\s]*` followed by `([^\n\r.]+)`, with the regex backtracking
that surrenders trailing run characters when the capture would otherwise
be empty (they are themselves in the capture class unless `\n`/`\r`). -/
def backtrackCaptureAux (allowed : Char → Bool) : List Char → List Char → Option (List Char)
  | revRun, after =>
    let cap := after.takeWhile allowed
    if cap.isEmpty then
      match revRun with
      | [] => none
      | c :: rest => backtrackCaptureAux allowed rest (c :: after)
    else some cap

/-- `(?:k₁|k₂|…)[:\s]*([^\n\r.]+)` at the position, returning the capture. -/
def matchKeyLineAt (keys : List (List Char)) (s : List Char) : Option (List Char) :=
  match ciPrefixAny keys s with
  | none => none
  | some rest =>
    let run := rest.takeWhile (fun c => c = ':' || isWsChar c)
    let after := rest.dropWhile (fun c => c = ':' || isWsChar c)
    backtrackCaptureAux
      (fun c => !(c = '\n' || c = '\r' || c = '.')) run.reverse after

/-- JS `String.prototype.trim` on a char list. -/
def jsTrim (l : List Char) : List Char :=
  ((l.dropWhile isWsChar).reverse.dropWhile isWsChar).reverse

def compressionKeywords : List String :=
  ["h264", "h265", "mp4", "avi", "mov", "webm", "compressed", "encoded", "transcoded"]

def jsToUpper (s : String) : String := String.map Char.toUpper s

/-- The seven `sourceKeywords` rows: alternation words, source name,
preset `verified` flag. -/
def authSourceKeywordRows : List (List String × String × Bool) :=
  [(["youtube", "yt"], "YouTube", false),
   (["facebook", "fb"], "Facebook", false),
   (["instagram", "ig"], "Instagram", false),
   (["twitter", "x.com"], "Twitter/X", false),
   (["tiktok"], "TikTok", false),
   (["news", "broadcast"], "News Media", true),
   (["original", "source"], "Original Source", true)]

/-- The rows whose pattern tests true on the response. -/
def authTriggeredRows (response : String) : List (List String × String × Bool) :=
  authSourceKeywordRows.filter (fun row => row.1.any (fun w => containsKeyword response.toList w))

/-- The shape returned by `parseAuthenticityResponse`. -/
structure AuthenticityParsed where
  confidence : ℚ
  sources : List AuthenticitySource
  metadata : AuthMetadata
deriving DecidableEq

/-- `parseAuthenticityResponse`: confidence, metadata field extraction,
compression-keyword history, and platform source entries with jittered
similarities; a generic `Unknown Source` is added when nothing matched but
confidence exceeds 30. -/
def parseAuthenticityResponse (response : String) (rnd : ℕ → ℚ) : AuthenticityParsed :=
  let s := response.toList
  let confidence := authConfidence response
  let creationDate := (scanFirst matchDateAt s).map String.mk
  let deviceInfo := (scanFirst (matchKeyLineAt
    ["device".toList, "camera".toList, "phone".toList]) s).map (fun c => String.mk (jsTrim c))
  let location := (scanFirst (matchKeyLineAt
    ["location".toList, "gps".toList, "coordinates".toList]) s).map (fun c => String.mk (jsTrim c))
  let compressionHistory :=
    (compressionKeywords.filter (fun kw => containsKeyword s kw)).map jsToUpper
  let triggered := authTriggeredRows response
  let pushedSources := triggered.enum.map (fun p =>
    { url := none
      similarity := min 100 ((confidence : ℚ) + rnd p.1 * 20 - 10)
      source := p.2.2.1
      verified := p.2.2.2 : AuthenticitySource })
  let sources :=
    if pushedSources.length = 0 ∧ confidence > 30 then
      [{ url := none, similarity := (confidence : ℚ)
         source := "Unknown Source", verified := false }]
    else pushedSources
  { confidence := (confidence : ℚ)
    sources := sources
    metadata :=
      { creation_date := creationDate
        device_info := deviceInfo
        location := location
        compression_history := compressionHistory } }

theorem jsRound_nonneg {q : ℚ} (h : 0 ≤ q) : 0 ≤ jsRound q := by
  unfold jsRound
  have : (0 : ℚ) ≤ q + 1 / 2 := by linarith
  exact Int.floor_nonneg.mpr this

theorem jsRound_le_100 {q : ℚ} (h : q ≤ 100) : jsRound q ≤ 100 := by
  unfold jsRound
  have h1 : q + 1 / 2 < ((101 : ℤ) : ℚ) := by push_cast; linarith
  have h2 : ⌊q + 1 / 2⌋ < 101 := Int.floor_lt.mpr h1
  omega

/-- C7: for in-range confidences the code's score
`clamp(round(w))` coincides with the specification's `round(clamp(w))`, the
recommendation tiers are driven by the stated thresholds, and the worked
example `(aiConf = 80, manipConf = 70, authConf = 20)` yields score 24 and
the "VERY LOW CREDIBILITY" tier. -/
theorem credibility_score_formula_tiers_and_example
    (ar : AIAnalysisResult) (mr : ManipulationAnalysisResult)
    (ur : AuthenticityAnalysisResult) (s : ℤ)
    (ha0 : 0 ≤ ar.confidence) (ha1 : ar.confidence ≤ 100)
    (hm0 : 0 ≤ mr.confidence) (hm1 : mr.confidence ≤ 100)
    (hu0 : 0 ≤ ur.confidence) (hu1 : ur.confidence ≤ 100) :
    calculateCredibilityScore ar mr ur =
      specCredibilityScore ar.confidence mr.confidence ur.confidence ∧
    (80 ≤ s → generateRecommendation s ar mr ur =
      "HIGH CREDIBILITY: Video appears authentic with minimal signs of manipulation or AI generation.") ∧
    (60 ≤ s → s < 80 → generateRecommendation s ar mr ur =
      "MODERATE CREDIBILITY: Video shows some concerning indicators. Additional verification recommended.") ∧
    (40 ≤ s → s < 60 → generateRecommendation s ar mr ur =
      "LOW CREDIBILITY: Video shows significant signs of manipulation or AI generation. Use with caution.") ∧
    (s < 40 → generateRecommendation s ar mr ur =
      "VERY LOW CREDIBILITY: Video likely contains AI-generated content or significant manipulations. Not recommended for use.") ∧
    calculateCredibilityScore (sampleAIResult 80) (sampleManipResult 70) (sampleAuthResult 20) = 24 ∧
    generateRecommendation 24 ar mr ur =
      "VERY LOW CREDIBILITY: Video likely contains AI-generated content or significant manipulations. Not recommended for use." := by
  constructor
  · -- the weighted sum is already within [0, 100], so both clamps are inert
    simp only [calculateCredibilityScore, specCredibilityScore]
    set w : ℚ := (100 - ar.confidence) * 0.4 + (100 - mr.confidence) * 0.35 +
      ur.confidence * 0.25 with hw
    have hw0 : 0 ≤ w := by rw [hw]; nlinarith
    have hw1 : w ≤ 100 := by rw [hw]; nlinarith
    have h1 : 0 ≤ jsRound w := jsRound_nonneg hw0
    have h2 : jsRound w ≤ 100 := jsRound_le_100 hw1
    rw [min_eq_right hw1, max_eq_right hw0, min_eq_right h2, max_eq_right h1]
  refine ⟨?_, ?_, ?_, ?_, ?_, ?_⟩
  · intro h
    unfold generateRecommendation
    rw [if_pos h]
  · intro h1 h2
    unfold generateRecommendation
    rw [if_neg (by omega), if_pos h1]
  · intro h1 h2
    unfold generateRecommendation
    rw [if_neg (by omega), if_neg (by omega), if_pos h1]
  · intro h
    unfold generateRecommendation
    rw [if_neg (by omega), if_neg (by omega), if_neg (by omega)]
  · simp only [calculateCredibilityScore, sampleAIResult, sampleManipResult, sampleAuthResult]
    have hv : ((100 : ℚ) - 80) * 0.4 + (100 - 70) * 0.35 + 20 * 0.25 = 47 / 2 := by norm_num
    rw [hv]
    have hr : jsRound (47 / 2) = 24 := by
      unfold jsRound
      norm_num
    rw [hr]
    omega
  · unfold generateRecommendation
    rw [if_neg (by omega), if_neg (by omega), if_neg (by omega)]

theorem mergeLoop_props (xs : List TimelineAnomaly) :
    ∀ current : TimelineAnomaly, (∀ y ∈ xs, current.timestamp ≤ y.timestamp) →
      xs.Pairwise tsLe →
      (∀ z ∈ mergeLoop current xs, current.timestamp ≤ z.timestamp) ∧
      (∃ z zs, mergeLoop current xs = z :: zs ∧ z.timestamp = current.timestamp) ∧
      (mergeLoop current xs).Pairwise tsLe ∧
      (mergeLoop current xs).Chain' anomalyGap := by
  induction xs with
  | nil =>
    intro current _ _
    refine ⟨?_, ⟨current, [], rfl, rfl⟩, ?_, ?_⟩
    · intro z hz
      simp only [mergeLoop, List.mem_singleton] at hz
      simp [hz]
    · simp [mergeLoop]
    · simp [mergeLoop]
  | cons next rest ih =>
    intro current hcur hpair
    have hcn : current.timestamp ≤ next.timestamp := hcur next (by simp)
    have hpair' : rest.Pairwise tsLe := (List.pairwise_cons.mp hpair).2
    have hnr : ∀ y ∈ rest, next.timestamp ≤ y.timestamp :=
      fun y hy => (List.pairwise_cons.mp hpair).1 y hy
    by_cases hof : next.timestamp ≤ current.timestamp + current.duration + 2
    · -- merge branch: the accumulator keeps `current`'s timestamp
      have hstep : mergeLoop current (next :: rest) =
          mergeLoop (mergeTwoAnomalies current next) rest := by
        simp [mergeLoop, hof]
      have hts : (mergeTwoAnomalies current next).timestamp = current.timestamp := rfl
      have hcur' : ∀ y ∈ rest, (mergeTwoAnomalies current next).timestamp ≤ y.timestamp := by
        intro y hy
        rw [hts]
        exact hcur y (by simp [hy])
      obtain ⟨h0, h1, h2, h3⟩ := ih (mergeTwoAnomalies current next) hcur' hpair'
      rw [hstep]
      refine ⟨fun z hz => ?_, ?_, h2, h3⟩
      · have := h0 z hz
        rw [hts] at this
        exact this
      · obtain ⟨z, zs, hzz, hzt⟩ := h1
        exact ⟨z, zs, hzz, by rw [hzt, hts]⟩
    · -- emit branch: `current` is separated from everything that follows
      have hgap : anomalyGap current next := by
        unfold anomalyGap
        exact lt_of_not_le hof
      have hstep : mergeLoop current (next :: rest) = current :: mergeLoop next rest := by
        simp [mergeLoop, hof]
      obtain ⟨h0, h1, h2, h3⟩ := ih next hnr hpair'
      rw [hstep]
      obtain ⟨z, zs, hzz, hzt⟩ := h1
      refine ⟨?_, ⟨current, mergeLoop next rest, rfl, rfl⟩, ?_, ?_⟩
      · intro w hw
        rcases List.mem_cons.mp hw with h | h
        · simp [h]
        · exact le_trans hcn (h0 w h)
      · refine List.pairwise_cons.mpr ⟨?_, h2⟩
        intro w hw
        exact le_trans hcn (h0 w hw)
      · rw [hzz]
        refine List.chain'_cons.mpr ⟨?_, by rw [← hzz]; exact h3⟩
        unfold anomalyGap at hgap ⊢
        rw [hzt]
        exact hgap

theorem mergeOverlappingAnomalies_sorted_chain (l : List TimelineAnomaly) :
    (mergeOverlappingAnomalies l).Pairwise tsLe ∧
    (mergeOverlappingAnomalies l).Chain' anomalyGap := by
  unfold mergeOverlappingAnomalies
  cases hs : List.insertionSort tsLe l with
  | nil => simp
  | cons x xs =>
    have hsorted : (x :: xs).Pairwise tsLe := by
      rw [← hs]
      exact List.sorted_insertionSort tsLe l
    obtain ⟨hx, hpair⟩ := List.pairwise_cons.mp hsorted
    obtain ⟨_, _, h2, h3⟩ := mergeLoop_props xs x hx hpair
    exact ⟨h2, h3⟩

theorem chain_gap_pairwise :
    ∀ l : List TimelineAnomaly, l.Chain' anomalyGap → l.Pairwise tsLe →
      l.Pairwise anomalyGap := by
  intro l
  induction l with
  | nil => intro _ _; simp
  | cons x xs ih =>
    intro hchain hpair
    obtain ⟨hx, hpair'⟩ := List.pairwise_cons.mp hpair
    have hchain' : xs.Chain' anomalyGap := hchain.tail
    refine List.pairwise_cons.mpr ⟨?_, ih hchain' hpair'⟩
    intro b hb
    cases xs with
    | nil => simp at hb
    | cons y ys =>
      have hxy : anomalyGap x y := (List.chain'_cons.mp hchain).1
      rcases List.mem_cons.mp hb with h | h
      · rw [h]; exact hxy
      · have hyb : y.timestamp ≤ b.timestamp :=
          (List.pairwise_cons.mp hpair').1 b h
        unfold anomalyGap at hxy ⊢
        linarith

/-- C5: in the output of `mergeOverlappingAnomalies`, no anomaly `a` that
comes before `b` satisfies `a.timestamp + a.duration + 2 ≥ b.timestamp`;
the output is in nondecreasing timestamp order, and every earlier interval
ends more than the 2-second tolerance before any later one starts. -/
theorem merge_output_non_overlapping (l : List TimelineAnomaly) :
    (mergeOverlappingAnomalies l).Pairwise tsLe ∧
    (mergeOverlappingAnomalies l).Pairwise
      (fun a b => ¬(a.timestamp + a.duration + 2 ≥ b.timestamp)) := by
  obtain ⟨h1, h2⟩ := mergeOverlappingAnomalies_sorted_chain l
  refine ⟨h1, ?_⟩
  have := chain_gap_pairwise _ h2 h1
  exact this.imp (fun h => by unfold anomalyGap at h; exact not_le.mpr h)

theorem mergeLoop_of_chain :
    ∀ xs : List TimelineAnomaly, ∀ x : TimelineAnomaly,
      (x :: xs).Chain' anomalyGap → mergeLoop x xs = x :: xs := by
  intro xs
  induction xs with
  | nil => intro x _; simp [mergeLoop]
  | cons y ys ih =>
    intro x hchain
    have hxy : anomalyGap x y := (List.chain'_cons.mp hchain).1
    have hcond : ¬(y.timestamp ≤ x.timestamp + x.duration + 2) := by
      unfold anomalyGap at hxy
      exact not_le.mpr hxy
    simp only [mergeLoop, if_neg hcond]
    rw [ih y (List.chain'_cons.mp hchain).2]

theorem merge_fixed_on_sorted_chain (m : List TimelineAnomaly)
    (h1 : m.Pairwise tsLe) (h2 : m.Chain' anomalyGap) :
    mergeOverlappingAnomalies m = m := by
  unfold mergeOverlappingAnomalies
  rw [List.Sorted.insertionSort_eq h1]
  cases m with
  | nil => rfl
  | cons x xs => exact mergeLoop_of_chain xs x h2

/-- C4: the timeline-anomaly merge is idempotent — re-merging an
already-merged list returns it unchanged. -/
theorem merge_idempotent (l : List TimelineAnomaly) :
    mergeOverlappingAnomalies (mergeOverlappingAnomalies l) =
      mergeOverlappingAnomalies l := by
  obtain ⟨h1, h2⟩ := mergeOverlappingAnomalies_sorted_chain l
  exact merge_fixed_on_sorted_chain _ h1 h2

/-- C6 counterexample: two overlapping anomalies with equal confidence 50
and distinct types (`cut` for `current`, `insertion` for `next`) merge to
the type of `next`, not of `current` as the claim's tie rule states: the
source's condition `current.confidence > next.confidence` is false on a
tie, so the else branch picks `next.type`. -/
theorem merge_tie_type_counterexample :
    (mergeOverlappingAnomalies [tieAnomalyA, tieAnomalyB]).map TimelineAnomaly.type =
      [AnomalyType.insertion] ∧
    tieAnomalyA.confidence = tieAnomalyB.confidence ∧
    tieAnomalyA.type = AnomalyType.cut ∧
    AnomalyType.insertion ≠ AnomalyType.cut := by
  refine ⟨?_, rfl, rfl, by simp⟩
  have hle : tsLe tieAnomalyA tieAnomalyB := by
    unfold tsLe tieAnomalyA tieAnomalyB
    norm_num
  have hof : tieAnomalyB.timestamp ≤
      tieAnomalyA.timestamp + tieAnomalyA.duration + 2 := by
    unfold tieAnomalyA tieAnomalyB
    norm_num
  have hsort : List.insertionSort tsLe [tieAnomalyA, tieAnomalyB] =
      [tieAnomalyA, tieAnomalyB] := by
    simp [List.insertionSort, List.orderedInsert, hle]
  unfold mergeOverlappingAnomalies
  rw [hsort]
  simp only [mergeLoop, if_pos hof, List.map_cons, List.map_nil]
  have htype : (mergeTwoAnomalies tieAnomalyA tieAnomalyB).type = AnomalyType.insertion := by
    unfold mergeTwoAnomalies tieAnomalyA tieAnomalyB
    norm_num
  rw [htype]

/-- C6 (amended): when `mergeOverlappingAnomalies` merges an in-tolerance
sorted pair `current`, `next`, the merged duration is
`max(current.duration, next.timestamp + next.duration − current.timestamp)`,
the merged confidence is `max(current.confidence, next.confidence)`, and the
merged type is `current.type` when `current.confidence` is strictly greater
and `next.type` otherwise — ties take `next`'s type, not `current`'s. -/
theorem merge_pair_fields (c n : TimelineAnomaly)
    (hle : tsLe c n) (hof : n.timestamp ≤ c.timestamp + c.duration + 2) :
    mergeOverlappingAnomalies [c, n] = [mergeTwoAnomalies c n] ∧
    (mergeTwoAnomalies c n).duration =
      max c.duration (n.timestamp + n.duration - c.timestamp) ∧
    (mergeTwoAnomalies c n).confidence = max c.confidence n.confidence ∧
    (n.confidence < c.confidence → (mergeTwoAnomalies c n).type = c.type) ∧
    (c.confidence ≤ n.confidence → (mergeTwoAnomalies c n).type = n.type) := by
  refine ⟨?_, max_comm _ _, rfl, ?_, ?_⟩
  · have hsort : List.insertionSort tsLe [c, n] = [c, n] := by
      simp [List.insertionSort, List.orderedInsert, hle]
    unfold mergeOverlappingAnomalies
    rw [hsort]
    simp only [mergeLoop, if_pos hof]
  · intro h
    unfold mergeTwoAnomalies
    simp only [if_pos h]
  · intro h
    unfold mergeTwoAnomalies
    simp only [if_neg (not_lt.mpr h)]

/-- Witness for C6's amended theorem at the tied pair. -/
theorem merge_pair_fields_witness :
    mergeOverlappingAnomalies [tieAnomalyA, tieAnomalyB] =
      [mergeTwoAnomalies tieAnomalyA tieAnomalyB] ∧
    (mergeTwoAnomalies tieAnomalyA tieAnomalyB).type = tieAnomalyB.type := by
  have h := merge_pair_fields tieAnomalyA tieAnomalyB
    (by unfold tsLe tieAnomalyA tieAnomalyB; norm_num)
    (by unfold tieAnomalyA tieAnomalyB; norm_num)
  exact ⟨h.1, h.2.2.2.2 (by unfold tieAnomalyA tieAnomalyB; norm_num)⟩

/-- Witness for C7 at the worked example `(80, 70, 20)`. -/
theorem credibility_score_formula_tiers_and_example_witness :
    calculateCredibilityScore (sampleAIResult 80) (sampleManipResult 70) (sampleAuthResult 20) =
      specCredibilityScore 80 70 20 ∧
    generateRecommendation 24 (sampleAIResult 80) (sampleManipResult 70) (sampleAuthResult 20) =
      "VERY LOW CREDIBILITY: Video likely contains AI-generated content or significant manipulations. Not recommended for use." := by
  have h := credibility_score_formula_tiers_and_example
    (sampleAIResult 80) (sampleManipResult 70) (sampleAuthResult 20) 24
    (by norm_num [sampleAIResult]) (by norm_num [sampleAIResult])
    (by norm_num [sampleManipResult]) (by norm_num [sampleManipResult])
    (by norm_num [sampleAuthResult]) (by norm_num [sampleAuthResult])
  exact ⟨h.1, h.2.2.2.2.2.2⟩

/-! ## Orchestration theorems (C1, C2) -/

theorem calculateCredibilityScore_range (a : AIAnalysisResult)
    (m : ManipulationAnalysisResult) (u : AuthenticityAnalysisResult) :
    0 ≤ calculateCredibilityScore a m u ∧ calculateCredibilityScore a m u ≤ 100 := by
  simp only [calculateCredibilityScore]
  omega

/-- C1 counterexample: with every attempt of all three analyzers rejecting
(so each `executeWithRetry` exhausts its retries and rejects),
`orchestrateVideoAnalysis` does not raise: the internal
"All analyses failed" throw is caught by the function's own catch block,
which returns the complete default results object instead. -/
theorem orchestrate_all_failed_counterexample :
    orchestrateVideoAnalysis true true true
      (fun _ => Except.error "a") (fun _ => Except.error "b") (fun _ => Except.error "c") 2 =
    Except.ok (createDefaultAnalysisResults
      "Analysis failed: All analyses failed: Analysis failed: Error: a; Analysis failed: Error: b; Analysis failed: Error: c") := by
  rfl

/-- C1 (amended): if all three analyzers exhaust their retries, the
internal "All analyses failed" error (listing the three per-kind failure
reasons) is caught by `orchestrateVideoAnalysis` itself, which returns — 
rather than raises — the complete zero-score default results carrying
those reasons in its summary. -/
theorem orchestrate_all_failed_returns_defaults
    (aiAttempt : ℕ → Except String AIAnalysisResult)
    (manipulationAttempt : ℕ → Except String ManipulationAnalysisResult)
    (authenticityAttempt : ℕ → Except String AuthenticityAnalysisResult)
    (retryAttempts : ℕ) (ea em eu : String)
    (ha : executeWithRetry aiAttempt retryAttempts = Except.error ea)
    (hm : executeWithRetry manipulationAttempt retryAttempts = Except.error em)
    (hu : executeWithRetry authenticityAttempt retryAttempts = Except.error eu) :
    orchestrateVideoAnalysis true true true
        aiAttempt manipulationAttempt authenticityAttempt retryAttempts =
      Except.ok (createDefaultAnalysisResults
        ("Analysis failed: All analyses failed: " ++ String.intercalate "; "
          ["Analysis failed: " ++ errString ea,
           "Analysis failed: " ++ errString em,
           "Analysis failed: " ++ errString eu])) := by
  have hbridge : orchestrateVideoAnalysis true true true
      aiAttempt manipulationAttempt authenticityAttempt retryAttempts =
      orchestrateProcessSettled
        (some (executeWithRetry aiAttempt retryAttempts))
        (some (executeWithRetry manipulationAttempt retryAttempts))
        (some (executeWithRetry authenticityAttempt retryAttempts)) := rfl
  rw [hbridge, ha, hm, hu]
  rfl

/-- Witness for C1's amended theorem at concrete all-failing analyzers. -/
theorem orchestrate_all_failed_returns_defaults_witness :
    orchestrateVideoAnalysis true true true
        (fun _ => Except.error "a") (fun _ => Except.error "b") (fun _ => Except.error "c") 2 =
      Except.ok (createDefaultAnalysisResults
        ("Analysis failed: All analyses failed: " ++ String.intercalate "; "
          ["Analysis failed: " ++ errString "a",
           "Analysis failed: " ++ errString "b",
           "Analysis failed: " ++ errString "c"])) :=
  orchestrate_all_failed_returns_defaults
    (fun _ => Except.error "a") (fun _ => Except.error "b") (fun _ => Except.error "c")
    2 "a" "b" "c" rfl rfl rfl

/-- C2: `orchestrateVideoAnalysis` always returns a structurally complete
`VideoAnalysisResults` with `credibilityScore` in `[0, 100]`; when at least
one analyzer succeeds each failed analyzer's section is the zero-confidence
default carrying a failure explanation, and when every analyzer fails the
score degrades to 0 with the explanatory catch-path summary. -/
theorem orchestrate_always_complete
    (aiAttempt : ℕ → Except String AIAnalysisResult)
    (manipulationAttempt : ℕ → Except String ManipulationAnalysisResult)
    (authenticityAttempt : ℕ → Except String AuthenticityAnalysisResult)
    (retryAttempts : ℕ) :
    ∃ r : VideoAnalysisResults,
      orchestrateVideoAnalysis true true true
          aiAttempt manipulationAttempt authenticityAttempt retryAttempts = Except.ok r ∧
      0 ≤ r.overall.credibilityScore ∧ r.overall.credibilityScore ≤ 100 ∧
      ((executeWithRetry aiAttempt retryAttempts).isOk = false →
        ((executeWithRetry manipulationAttempt retryAttempts).isOk = true ∨
         (executeWithRetry authenticityAttempt retryAttempts).isOk = true) →
        r.aiGenerated = createDefaultAIResult "AI detection analysis failed") ∧
      ((executeWithRetry manipulationAttempt retryAttempts).isOk = false →
        ((executeWithRetry aiAttempt retryAttempts).isOk = true ∨
         (executeWithRetry authenticityAttempt retryAttempts).isOk = true) →
        r.manipulation = createDefaultManipulationResult "Manipulation detection analysis failed") ∧
      ((executeWithRetry authenticityAttempt retryAttempts).isOk = false →
        ((executeWithRetry aiAttempt retryAttempts).isOk = true ∨
         (executeWithRetry manipulationAttempt retryAttempts).isOk = true) →
        r.authenticity = createDefaultAuthenticityResult "Authenticity verification analysis failed") ∧
      ((executeWithRetry aiAttempt retryAttempts).isOk = false →
        (executeWithRetry manipulationAttempt retryAttempts).isOk = false →
        (executeWithRetry authenticityAttempt retryAttempts).isOk = false →
        r.overall.credibilityScore = 0 ∧
        r.overall.recommendation = "Analysis could not be completed") := by
  have hbridge : orchestrateVideoAnalysis true true true
      aiAttempt manipulationAttempt authenticityAttempt retryAttempts =
      orchestrateProcessSettled
        (some (executeWithRetry aiAttempt retryAttempts))
        (some (executeWithRetry manipulationAttempt retryAttempts))
        (some (executeWithRetry authenticityAttempt retryAttempts)) := rfl
  rcases hA : executeWithRetry aiAttempt retryAttempts with eA | vA <;>
    rcases hM : executeWithRetry manipulationAttempt retryAttempts with eM | vM <;>
      rcases hU : executeWithRetry authenticityAttempt retryAttempts with eU | vU <;>
        rw [hA, hM, hU] at hbridge
  -- all three failed: the catch path returns the zero-score defaults
  · refine ⟨_, hbridge.trans rfl, ?_, ?_, ?_, ?_, ?_, ?_⟩
    · exact le_refl 0
    · show (0 : ℤ) ≤ 100
      norm_num
    · intro _ h2
      rcases h2 with h | h <;> simp [Except.isOk, Except.toBool] at h
    · intro _ h2
      rcases h2 with h | h <;> simp [Except.isOk, Except.toBool] at h
    · intro _ h2
      rcases h2 with h | h <;> simp [Except.isOk, Except.toBool] at h
    · intro _ _ _
      exact ⟨rfl, rfl⟩
  · refine ⟨_, hbridge.trans rfl, (calculateCredibilityScore_range _ _ _).1,
      (calculateCredibilityScore_range _ _ _).2, ?_, ?_, ?_, ?_⟩
    · intro _ _; rfl
    · intro _ _; rfl
    · intro h1 _; simp [Except.isOk, Except.toBool] at h1
    · intro _ _ h3; simp [Except.isOk, Except.toBool] at h3
  · refine ⟨_, hbridge.trans rfl, (calculateCredibilityScore_range _ _ _).1,
      (calculateCredibilityScore_range _ _ _).2, ?_, ?_, ?_, ?_⟩
    · intro _ _; rfl
    · intro h1 _; simp [Except.isOk, Except.toBool] at h1
    · intro _ _; rfl
    · intro _ h2; simp [Except.isOk, Except.toBool] at h2
  · refine ⟨_, hbridge.trans rfl, (calculateCredibilityScore_range _ _ _).1,
      (calculateCredibilityScore_range _ _ _).2, ?_, ?_, ?_, ?_⟩
    · intro _ _; rfl
    · intro h1 _; simp [Except.isOk, Except.toBool] at h1
    · intro h1 _; simp [Except.isOk, Except.toBool] at h1
    · intro _ h2; simp [Except.isOk, Except.toBool] at h2
  · refine ⟨_, hbridge.trans rfl, (calculateCredibilityScore_range _ _ _).1,
      (calculateCredibilityScore_range _ _ _).2, ?_, ?_, ?_, ?_⟩
    · intro h1 _; simp [Except.isOk, Except.toBool] at h1
    · intro _ _; rfl
    · intro _ _; rfl
    · intro h1; simp [Except.isOk, Except.toBool] at h1
  · refine ⟨_, hbridge.trans rfl, (calculateCredibilityScore_range _ _ _).1,
      (calculateCredibilityScore_range _ _ _).2, ?_, ?_, ?_, ?_⟩
    · intro h1 _; simp [Except.isOk, Except.toBool] at h1
    · intro _ _; rfl
    · intro h1 _; simp [Except.isOk, Except.toBool] at h1
    · intro h1; simp [Except.isOk, Except.toBool] at h1
  · refine ⟨_, hbridge.trans rfl, (calculateCredibilityScore_range _ _ _).1,
      (calculateCredibilityScore_range _ _ _).2, ?_, ?_, ?_, ?_⟩
    · intro h1 _; simp [Except.isOk, Except.toBool] at h1
    · intro h1 _; simp [Except.isOk, Except.toBool] at h1
    · intro _ _; rfl
    · intro h1; simp [Except.isOk, Except.toBool] at h1
  · refine ⟨_, hbridge.trans rfl, (calculateCredibilityScore_range _ _ _).1,
      (calculateCredibilityScore_range _ _ _).2, ?_, ?_, ?_, ?_⟩
    · intro h1 _; simp [Except.isOk, Except.toBool] at h1
    · intro h1 _; simp [Except.isOk, Except.toBool] at h1
    · intro h1 _; simp [Except.isOk, Except.toBool] at h1
    · intro h1; simp [Except.isOk, Except.toBool] at h1

/-- Witness for C2 at one succeeding and two failing analyzers. -/
theorem orchestrate_always_complete_witness :
    ∃ r : VideoAnalysisResults,
      orchestrateVideoAnalysis true true true
          (fun _ => Except.error "a") (fun _ => Except.ok (sampleManipResult 10))
          (fun _ => Except.error "c") 2 = Except.ok r ∧
      0 ≤ r.overall.credibilityScore ∧ r.overall.credibilityScore ≤ 100 := by
  obtain ⟨r, h1, h2, h3, _⟩ := orchestrate_always_complete
    (fun _ => Except.error "a") (fun _ => Except.ok (sampleManipResult 10))
    (fun _ => Except.error "c") 2
  exact ⟨r, h1, h2, h3⟩

/-! ## Source de-duplication theorems (C10) -/

theorem sourceKey_insert_step (acc : List AuthenticitySource) (s : AuthenticitySource)
    (processed : List AuthenticitySource)
    (h1 : acc.Pairwise sourceKeyNe)
    (h2 : ∀ a ∈ acc, a ∈ processed)
    (h3 : ∀ a ∈ acc, ∀ t ∈ processed, sourceKey t = sourceKey a →
      t.similarity ≤ a.similarity)
    (h4 : ∀ t ∈ processed, ∃ a ∈ acc, sourceKey a = sourceKey t) :
    (insertSourceIntoMap acc s).Pairwise sourceKeyNe ∧
    (∀ a ∈ insertSourceIntoMap acc s, a ∈ processed ++ [s]) ∧
    (∀ a ∈ insertSourceIntoMap acc s, ∀ t ∈ processed ++ [s],
      sourceKey t = sourceKey a → t.similarity ≤ a.similarity) ∧
    (∀ t ∈ processed ++ [s], ∃ a ∈ insertSourceIntoMap acc s,
      sourceKey a = sourceKey t) := by
  by_cases hex : acc.any (fun e => sourceKey e = sourceKey s)
  · -- key already present: in-place replacement via the map
    obtain ⟨e0, he0, hk0⟩ := List.any_eq_true.mp hex
    simp only [decide_eq_true_eq] at hk0
    set f : AuthenticitySource → AuthenticitySource := fun e =>
      if sourceKey e = sourceKey s ∧ s.similarity > e.similarity then s else e with hf
    have hins : insertSourceIntoMap acc s = acc.map f := by
      simp only [insertSourceIntoMap, if_pos hex, hf]
    have hfpos : ∀ e, sourceKey e = sourceKey s ∧ s.similarity > e.similarity →
        f e = s := by
      intro e hc
      simp only [hf]
      exact if_pos hc
    have hfneg : ∀ e, ¬(sourceKey e = sourceKey s ∧ s.similarity > e.similarity) →
        f e = e := by
      intro e hc
      simp only [hf]
      exact if_neg hc
    have hkey : ∀ e, sourceKey (f e) = sourceKey e := by
      intro e
      by_cases hc : sourceKey e = sourceKey s ∧ s.similarity > e.similarity
      · rw [hfpos e hc]
        exact hc.1.symm
      · rw [hfneg e hc]
    have hsim : ∀ e, e.similarity ≤ (f e).similarity := by
      intro e
      by_cases hc : sourceKey e = sourceKey s ∧ s.similarity > e.similarity
      · rw [hfpos e hc]
        exact le_of_lt hc.2
      · rw [hfneg e hc]
    have hmem : ∀ e, f e = e ∨ f e = s := by
      intro e
      by_cases hc : sourceKey e = sourceKey s ∧ s.similarity > e.similarity
      · right
        exact hfpos e hc
      · left
        exact hfneg e hc
    rw [hins]
    refine ⟨?_, ?_, ?_, ?_⟩
    · rw [List.pairwise_map]
      refine h1.imp ?_
      intro a b hab
      unfold sourceKeyNe at hab ⊢
      rw [hkey, hkey]
      exact hab
    · intro a ha
      obtain ⟨e, he, hfe⟩ := List.mem_map.mp ha
      rcases hmem e with h | h
      · rw [← hfe, h]
        exact List.mem_append_left _ (h2 e he)
      · rw [← hfe, h]
        exact List.mem_append_right _ (List.mem_singleton_self s)
    · intro a ha t ht hkt
      obtain ⟨e, he, hfe⟩ := List.mem_map.mp ha
      have hkea : sourceKey a = sourceKey e := by
        rw [← hfe]
        exact hkey e
      rcases List.mem_append.mp ht with htp | hts
      · -- t comes from the already processed elements
        calc t.similarity ≤ e.similarity := h3 e he t htp (by rw [hkt, hkea])
          _ ≤ (f e).similarity := hsim e
          _ = a.similarity := by rw [hfe]
      · -- t is the newly inserted s
        have hts' : t = s := List.mem_singleton.mp hts
        rw [hts'] at hkt ⊢
        have hkes : sourceKey e = sourceKey s := by rw [← hkea, ← hkt]
        by_cases hc : sourceKey e = sourceKey s ∧ s.similarity > e.similarity
        · rw [← hfe, hfpos e hc]
        · have hns : ¬ s.similarity > e.similarity := fun hgt => hc ⟨hkes, hgt⟩
          rw [← hfe, hfneg e hc]
          exact not_lt.mp hns
    · intro t ht
      rcases List.mem_append.mp ht with htp | hts
      · obtain ⟨a, ha, hka⟩ := h4 t htp
        refine ⟨f a, List.mem_map_of_mem f ha, ?_⟩
        rw [hkey]
        exact hka
      · have hts' : t = s := List.mem_singleton.mp hts
        refine ⟨f e0, List.mem_map_of_mem f he0, ?_⟩
        rw [hkey, hts']
        exact hk0
  · -- new key: appended at the end
    have hno : ∀ e ∈ acc, ¬ sourceKey e = sourceKey s := by
      intro e he hk
      exact hex (List.any_eq_true.mpr ⟨e, he, by simp [hk]⟩)
    have hins : insertSourceIntoMap acc s = acc ++ [s] := by
      simp only [insertSourceIntoMap, if_neg hex]
    rw [hins]
    refine ⟨?_, ?_, ?_, ?_⟩
    · rw [List.pairwise_append]
      refine ⟨h1, List.pairwise_singleton _ _, ?_⟩
      intro a ha b hb
      have hbs : b = s := List.mem_singleton.mp hb
      rw [hbs]
      exact hno a ha
    · intro a ha
      rcases List.mem_append.mp ha with h | h
      · exact List.mem_append_left _ (h2 a h)
      · exact List.mem_append_right _ h
    · intro a ha t ht hkt
      rcases List.mem_append.mp ha with haacc | has
      · rcases List.mem_append.mp ht with htp | hts
        · exact h3 a haacc t htp hkt
        · have hts' : t = s := List.mem_singleton.mp hts
          rw [hts'] at hkt
          exact absurd hkt.symm (hno a haacc)
      · have has' : a = s := List.mem_singleton.mp has
        rcases List.mem_append.mp ht with htp | hts
        · obtain ⟨b, hb, hkb⟩ := h4 t htp
          have hkbs : sourceKey b = sourceKey s := by
            rw [← has']
            exact hkb.trans hkt
          exact absurd hkbs (hno b hb)
        · have hts' : t = s := List.mem_singleton.mp hts
          rw [hts', has']
    · intro t ht
      rcases List.mem_append.mp ht with htp | hts
      · obtain ⟨a, ha, hka⟩ := h4 t htp
        exact ⟨a, List.mem_append_left _ ha, hka⟩
      · have hts' : t = s := List.mem_singleton.mp hts
        refine ⟨s, List.mem_append_right _ (List.mem_singleton_self s), ?_⟩
        rw [hts']

theorem dedupLoop_inv (rest : List AuthenticitySource) :
    ∀ acc processed : List AuthenticitySource,
      acc.Pairwise sourceKeyNe →
      (∀ a ∈ acc, a ∈ processed) →
      (∀ a ∈ acc, ∀ t ∈ processed, sourceKey t = sourceKey a →
        t.similarity ≤ a.similarity) →
      (∀ t ∈ processed, ∃ a ∈ acc, sourceKey a = sourceKey t) →
      (dedupLoop acc rest).Pairwise sourceKeyNe ∧
      (∀ a ∈ dedupLoop acc rest, a ∈ processed ++ rest) ∧
      (∀ a ∈ dedupLoop acc rest, ∀ t ∈ processed ++ rest,
        sourceKey t = sourceKey a → t.similarity ≤ a.similarity) ∧
      (∀ t ∈ processed ++ rest, ∃ a ∈ dedupLoop acc rest,
        sourceKey a = sourceKey t) := by
  induction rest with
  | nil =>
    intro acc processed h1 h2 h3 h4
    simp only [dedupLoop, List.append_nil]
    exact ⟨h1, h2, h3, h4⟩
  | cons s rest' ih =>
    intro acc processed h1 h2 h3 h4
    obtain ⟨g1, g2, g3, g4⟩ := sourceKey_insert_step acc s processed h1 h2 h3 h4
    have hassoc : processed ++ s :: rest' = (processed ++ [s]) ++ rest' := by simp
    rw [hassoc]
    simp only [dedupLoop]
    exact ih (insertSourceIntoMap acc s) (processed ++ [s]) g1 g2 g3 g4

theorem deduplicateSources_props (l : List AuthenticitySource) :
    (deduplicateSources l).Pairwise sourceKeyNe ∧
    (∀ a ∈ deduplicateSources l, a ∈ l ∧
      ∀ t ∈ l, sourceKey t = sourceKey a → t.similarity ≤ a.similarity) ∧
    (deduplicateSources l).Pairwise simGe := by
  obtain ⟨h1, h2, h3, _⟩ := dedupLoop_inv l [] []
    (List.Pairwise.nil) (by intro a ha; exact absurd ha (List.not_mem_nil a))
    (by intro a ha; exact absurd ha (List.not_mem_nil a))
    (by intro t ht; exact absurd ht (List.not_mem_nil t))
  simp only [List.nil_append] at h2 h3
  have hperm : List.Perm (List.insertionSort simGe (dedupLoop [] l)) (dedupLoop [] l) :=
    List.perm_insertionSort simGe (dedupLoop [] l)
  have hsym : ∀ {x y : AuthenticitySource}, sourceKeyNe x y → sourceKeyNe y x := by
    intro x y hab
    unfold sourceKeyNe at hab ⊢
    exact fun h => hab h.symm
  refine ⟨?_, ?_, ?_⟩
  · unfold deduplicateSources
    exact (hperm.pairwise_iff hsym).mpr h1
  · intro a ha
    have hmem : a ∈ dedupLoop [] l := hperm.mem_iff.mp ha
    exact ⟨h2 a hmem, fun t ht hk => h3 a hmem t ht hk⟩
  · unfold deduplicateSources
    exact List.sorted_insertionSort simGe (dedupLoop [] l)

/-- C10: the sources list that `performAuthenticityVerification` returns
(built by `deduplicateSources`) has no two entries with the same
lower-cased source name, every kept entry is an input entry carrying the
maximum similarity among input entries with its name, and the list is in
nonincreasing order of similarity. -/
theorem authenticity_sources_dedup_properties
    (metadataResult contextualResult sourceResult :
      Except String AuthenticityAnalysisResult) :
    ((performAuthenticityVerification metadataResult contextualResult
        sourceResult).sources).Pairwise sourceKeyNe ∧
    (∀ a ∈ (performAuthenticityVerification metadataResult contextualResult
        sourceResult).sources,
      a ∈ authVariantSources metadataResult contextualResult sourceResult ∧
      ∀ t ∈ authVariantSources metadataResult contextualResult sourceResult,
        sourceKey t = sourceKey a → t.similarity ≤ a.similarity) ∧
    ((performAuthenticityVerification metadataResult contextualResult
        sourceResult).sources).Pairwise simGe := by
  unfold performAuthenticityVerification
  cases hres : authResultsList metadataResult contextualResult sourceResult with
  | nil =>
    refine ⟨List.Pairwise.nil, ?_, List.Pairwise.nil⟩
    intro a ha
    exact absurd ha (List.not_mem_nil a)
  | cons r rs =>
    obtain ⟨h1, h2, h3⟩ := deduplicateSources_props
      (authVariantSources metadataResult contextualResult sourceResult)
    exact ⟨h1, h2, h3⟩

/-! ## Parser theorems (C3, C8, C9) -/

theorem clampConf_le_100 (o : Option ℕ) : clampConf o ≤ 100 := by
  cases o with
  | none => simp [clampConf]
  | some n => exact Nat.min_le_left _ _

theorem sumBump_le (ind : ManipIndicators) (k : ℕ) :
    manipIndicatorsSum (bumpIndicator ind k) ≤ manipIndicatorsSum ind + 1 := by
  rcases k with _ | _ | _ | _ | _ | n <;>
    simp [bumpIndicator, manipIndicatorsSum] <;> omega

theorem foldBump_le (l : List ℚ) (g : ℚ → ℕ) :
    ∀ ind : ManipIndicators,
      manipIndicatorsSum (l.foldl (fun i t => bumpIndicator i (g t)) ind) ≤
        manipIndicatorsSum ind + l.length := by
  induction l with
  | nil =>
    intro ind
    simp
  | cons t ts ih =>
    intro ind
    simp only [List.foldl_cons, List.length_cons]
    calc manipIndicatorsSum (ts.foldl (fun i t => bumpIndicator i (g t)) (bumpIndicator ind (g t)))
        ≤ manipIndicatorsSum (bumpIndicator ind (g t)) + ts.length := ih _
      _ ≤ manipIndicatorsSum ind + 1 + ts.length := by
          have := sumBump_le ind (g t)
          omega
      _ = manipIndicatorsSum ind + (ts.length + 1) := by omega

/-- C3 counterexample: on the response text `"face"` (no confidence
pattern, so confidence 0) with the legal `Math.random()` draw 0 (jitter
−10), the `facial_inconsistencies` indicator equals −10, outside `[0,100]`:
the source clamps the keyword indicators from above only. -/
theorem indicator_negative_counterexample :
    ((0 : ℚ) ≤ 0 ∧ (0 : ℚ) < 1) ∧
    (parseAIDetectionResponse "face" (fun _ => 0)).indicators.facial_inconsistencies = -10 := by
  refine ⟨⟨le_refl 0, by norm_num⟩, ?_⟩
  have h1 : (containsKeyword "face".toList "facial" ||
      containsKeyword "face".toList "face") = true := rfl
  have h2 : aiConfidence "face" = 0 := rfl
  simp only [parseAIDetectionResponse, h1, if_true, h2]
  have e1 : ((0 : ℕ) : ℚ) + 0 * 20 - 10 = -10 := by norm_num
  rw [e1]
  exact min_eq_right (by norm_num)

/-- C3 (amended): all three parsers' confidences lie in `[0, 100]`; the
AI-detection keyword indicators are at most 100 but only bounded below by
the negative jitter offsets (−10 / −7 / −7 / −5) — the lower clamp to 0 is
missing — and are exactly 0 when their keyword family is absent; the
manipulation indicators are occurrence counters, nonnegative by type and
bounded by the number of kept timestamps rather than by 100. -/
theorem parser_ranges (response : String) (videoDuration : ℚ) (rnd : ℕ → ℚ)
    (hrnd : ∀ i, 0 ≤ rnd i ∧ rnd i < 1) :
    (0 ≤ (parseAIDetectionResponse response rnd).confidence ∧
      (parseAIDetectionResponse response rnd).confidence ≤ 100) ∧
    ((parseAIDetectionResponse response rnd).indicators.facial_inconsistencies ≤ 100 ∧
      -10 ≤ (parseAIDetectionResponse response rnd).indicators.facial_inconsistencies) ∧
    ((parseAIDetectionResponse response rnd).indicators.temporal_artifacts ≤ 100 ∧
      -7 ≤ (parseAIDetectionResponse response rnd).indicators.temporal_artifacts) ∧
    ((parseAIDetectionResponse response rnd).indicators.lighting_anomalies ≤ 100 ∧
      -7 ≤ (parseAIDetectionResponse response rnd).indicators.lighting_anomalies) ∧
    ((parseAIDetectionResponse response rnd).indicators.compression_artifacts ≤ 100 ∧
      -5 ≤ (parseAIDetectionResponse response rnd).indicators.compression_artifacts) ∧
    ((containsKeyword response.toList "facial" || containsKeyword response.toList "face") = false →
      (parseAIDetectionResponse response rnd).indicators.facial_inconsistencies = 0) ∧
    (0 ≤ (parseManipulationResponse response videoDuration rnd).confidence ∧
      (parseManipulationResponse response videoDuration rnd).confidence ≤ 100) ∧
    manipIndicatorsSum (parseManipulationResponse response videoDuration rnd).indicators ≤
      (keptTimestamps response videoDuration).length ∧
    (0 ≤ (parseAuthenticityResponse response rnd).confidence ∧
      (parseAuthenticityResponse response rnd).confidence ≤ 100) := by
  have hconfBounds : ∀ n : ℕ, (0 : ℚ) ≤ (min 100 n : ℕ) ∧ ((min 100 n : ℕ) : ℚ) ≤ 100 := by
    intro n
    constructor
    · exact_mod_cast Nat.zero_le _
    · exact_mod_cast Nat.min_le_left 100 n
  have hcast : ∀ resp : String, (0 : ℚ) ≤ (aiConfidence resp : ℚ) := by
    intro resp
    exact_mod_cast Nat.zero_le _
  have hind : ∀ (b : Bool) (k : ℕ) (scale off : ℚ), 0 ≤ scale → 0 ≤ off →
      (if b then min 100 ((aiConfidence response : ℚ) + rnd k * scale - off) else 0) ≤ 100 ∧
      -off ≤ (if b then min 100 ((aiConfidence response : ℚ) + rnd k * scale - off) else 0) := by
    intro b k scale off hscale hoff
    cases b with
    | false =>
      simp only [Bool.false_eq_true, if_false]
      constructor <;> [norm_num; linarith]
    | true =>
      simp only [if_true]
      constructor
      · exact min_le_left _ _
      · refine le_min (by linarith) ?_
        have h0 := hcast response
        have hr := (hrnd k).1
        have : 0 ≤ rnd k * scale := mul_nonneg hr hscale
        linarith
  refine ⟨?_, ?_, ?_, ?_, ?_, ?_, ?_, ?_, ?_⟩
  · constructor
    · show (0 : ℚ) ≤ ((aiConfidence response : ℕ) : ℚ)
      exact_mod_cast Nat.zero_le _
    · show ((aiConfidence response : ℕ) : ℚ) ≤ 100
      have := clampConf_le_100 (aiConfidenceRaw response.toList)
      exact_mod_cast this
  · simpa only [parseAIDetectionResponse] using
      hind (containsKeyword response.toList "facial" || containsKeyword response.toList "face")
        0 20 10 (by norm_num) (by norm_num)
  · simpa only [parseAIDetectionResponse] using
      hind (containsKeyword response.toList "temporal" || containsKeyword response.toList "flicker")
        _ 15 7 (by norm_num) (by norm_num)
  · simpa only [parseAIDetectionResponse] using
      hind (containsKeyword response.toList "lighting" || containsKeyword response.toList "shadow")
        _ 15 7 (by norm_num) (by norm_num)
  · simpa only [parseAIDetectionResponse] using
      hind (containsKeyword response.toList "compression" || containsKeyword response.toList "artifact")
        _ 10 5 (by norm_num) (by norm_num)
  · intro habsent
    simp only [parseAIDetectionResponse, habsent]
    norm_num
  · constructor
    · show (0 : ℚ) ≤ ((manipConfidence response : ℕ) : ℚ)
      exact_mod_cast Nat.zero_le _
    · show ((manipConfidence response : ℕ) : ℚ) ≤ 100
      have := clampConf_le_100 (manipConfidenceRaw response.toList)
      exact_mod_cast this
  · show manipIndicatorsSum (manipIndicatorsOf response videoDuration) ≤ _
    unfold manipIndicatorsOf
    have := foldBump_le (keptTimestamps response videoDuration)
      (fun t => (classifyAnomaly (anomalyContext response.toList t)).2.2) zeroManipIndicators
    simpa [manipIndicatorsSum, zeroManipIndicators] using this
  · constructor
    · show (0 : ℚ) ≤ ((authConfidence response : ℕ) : ℚ)
      exact_mod_cast Nat.zero_le _
    · show ((authConfidence response : ℕ) : ℚ) ≤ 100
      have := clampConf_le_100 (authConfidenceRaw response.toList)
      exact_mod_cast this

/-- Witness for C3's amended theorem on the text `"face"` with draws 0. -/
theorem parser_ranges_witness :
    0 ≤ (parseAIDetectionResponse "face" (fun _ => 0)).confidence ∧
    (parseAIDetectionResponse "face" (fun _ => 0)).indicators.facial_inconsistencies ≤ 100 ∧
    -10 ≤ (parseAIDetectionResponse "face" (fun _ => 0)).indicators.facial_inconsistencies := by
  obtain ⟨h1, h2, _⟩ := parser_ranges "face" 60 (fun _ => 0)
    (fun _ => ⟨le_refl 0, by norm_num⟩)
  exact ⟨h1.1, h2.1, h2.2⟩

/-- C8 counterexample: two invocations of `parseAIDetectionResponse` on the
identical response text, with two different legal `Math.random()` draw
sequences (all 0 versus all 1/2), return different results — the
`facial_inconsistencies` indicator is 40 in one run and 50 in the other, so
the parsers are not functions of the text and duration hint alone. -/
theorem parser_jitter_counterexample :
    ((0 : ℚ) ≤ 0 ∧ (0 : ℚ) < 1 ∧ (0 : ℚ) ≤ 1 / 2 ∧ (1 / 2 : ℚ) < 1) ∧
    (parseAIDetectionResponse "face confidence: 50"
      (fun _ => 0)).indicators.facial_inconsistencies = 40 ∧
    (parseAIDetectionResponse "face confidence: 50"
      (fun _ => 1 / 2)).indicators.facial_inconsistencies = 50 ∧
    parseAIDetectionResponse "face confidence: 50" (fun _ => 0) ≠
      parseAIDetectionResponse "face confidence: 50" (fun _ => 1 / 2) := by
  have h1 : (containsKeyword "face confidence: 50".toList "facial" ||
      containsKeyword "face confidence: 50".toList "face") = true := rfl
  have h2 : aiConfidence "face confidence: 50" = 50 := rfl
  have hv0 : (parseAIDetectionResponse "face confidence: 50"
      (fun _ => 0)).indicators.facial_inconsistencies = 40 := by
    simp only [parseAIDetectionResponse, h1, if_true, h2]
    have e1 : ((50 : ℕ) : ℚ) + 0 * 20 - 10 = 40 := by norm_num
    rw [e1]
    exact min_eq_right (by norm_num)
  have hv1 : (parseAIDetectionResponse "face confidence: 50"
      (fun _ => 1 / 2)).indicators.facial_inconsistencies = 50 := by
    simp only [parseAIDetectionResponse, h1, if_true, h2]
    have e1 : ((50 : ℕ) : ℚ) + 1 / 2 * 20 - 10 = 50 := by norm_num
    rw [e1]
    exact min_eq_right (by norm_num)
  refine ⟨⟨le_refl 0, by norm_num, by norm_num, by norm_num⟩, hv0, hv1, ?_⟩
  intro h
  have := congrArg (fun p => p.indicators.facial_inconsistencies) h
  simp only at this
  rw [hv0, hv1] at this
  norm_num at this

/-- C8 (amended): each parser is a pure function of the response text, the
duration hint and the jitter draw sequence; everything except the jittered
numeric fields (keyword indicators, per-anomaly confidences, source
similarities) is independent of the draws: confidences, techniques,
anomaly timestamps and types, manipulation indicator counters, metadata
and source names/verified flags coincide across draw sequences. -/
theorem parser_pure_modulo_jitter (response : String) (videoDuration : ℚ)
    (rnd rnd2 : ℕ → ℚ) :
    (parseAIDetectionResponse response rnd).confidence =
      (parseAIDetectionResponse response rnd2).confidence ∧
    (parseAIDetectionResponse response rnd).techniques =
      (parseAIDetectionResponse response rnd2).techniques ∧
    (parseManipulationResponse response videoDuration rnd).confidence =
      (parseManipulationResponse response videoDuration rnd2).confidence ∧
    (parseManipulationResponse response videoDuration rnd).anomalies.map
        (fun a => a.timestamp) =
      (parseManipulationResponse response videoDuration rnd2).anomalies.map
        (fun a => a.timestamp) ∧
    (parseManipulationResponse response videoDuration rnd).anomalies.map
        (fun a => a.type) =
      (parseManipulationResponse response videoDuration rnd2).anomalies.map
        (fun a => a.type) ∧
    (parseManipulationResponse response videoDuration rnd).indicators =
      (parseManipulationResponse response videoDuration rnd2).indicators ∧
    (parseAuthenticityResponse response rnd).confidence =
      (parseAuthenticityResponse response rnd2).confidence ∧
    (parseAuthenticityResponse response rnd).metadata =
      (parseAuthenticityResponse response rnd2).metadata ∧
    (parseAuthenticityResponse response rnd).sources.map
        (fun s => (s.source, s.verified)) =
      (parseAuthenticityResponse response rnd2).sources.map
        (fun s => (s.source, s.verified)) := by
  have hlenM : ∀ rr : ℕ → ℚ, (manipTimestampAnomalies response videoDuration rr).length =
      (keptTimestamps response videoDuration).length := by
    intro rr
    simp [manipTimestampAnomalies]
  have hmapM : ∀ {α : Type} (f : TimelineAnomaly → α) (rr : ℕ → ℚ),
      (manipTimestampAnomalies response videoDuration rr).map f =
        (keptTimestamps response videoDuration).enum.map (fun p =>
          f (let cls := classifyAnomaly (anomalyContext response.toList p.2)
             { timestamp := p.2
               duration := 1
               type := cls.1
               confidence := min 100 ((manipConfidence response : ℚ) + rr p.1 * 20 - 10)
               description := cls.2.1 })) := by
    intro α f rr
    simp [manipTimestampAnomalies, List.map_map]
  have hlenA : ∀ rr : ℕ → ℚ, ((authTriggeredRows response).enum.map (fun p =>
      { url := none
        similarity := min 100 ((authConfidence response : ℚ) + rr p.1 * 20 - 10)
        source := p.2.2.1
        verified := p.2.2.2 : AuthenticitySource })).length =
      (authTriggeredRows response).length := by
    intro rr
    simp
  refine ⟨rfl, rfl, rfl, ?_, ?_, rfl, rfl, rfl, ?_⟩
  · simp only [parseManipulationResponse, hlenM]
    split_ifs with h
    · rfl
    · rw [hmapM _ rnd, hmapM _ rnd2]
  · simp only [parseManipulationResponse, hlenM]
    split_ifs with h
    · rfl
    · rw [hmapM _ rnd, hmapM _ rnd2]
  · simp only [parseAuthenticityResponse, hlenA]
    split_ifs with h
    · rfl
    · rw [List.map_map, List.map_map]
      rfl

/-- C9: when no anomaly was derived from extracted timestamps and the
extracted confidence exceeds 50, `parseManipulationResponse` synthesizes
exactly `floor(confidence / 25)` anomalies, the i-th at timestamp
`(videoDuration / (n + 1)) * (i + 1)`, so a high-confidence verdict never
comes with an empty anomaly timeline. -/
theorem fallback_anomaly_synthesis (response : String) (videoDuration : ℚ)
    (rnd : ℕ → ℚ)
    (hempty : (manipTimestampAnomalies response videoDuration rnd).length = 0)
    (hconf : manipConfidence response > 50) :
    (parseManipulationResponse response videoDuration rnd).anomalies =
      (List.range (manipConfidence response / 25)).map (fun i =>
        { timestamp := (videoDuration / ((manipConfidence response / 25 : ℕ) + 1)) *
            ((i : ℚ) + 1)
          duration := 2
          type := AnomalyType.temporal_inconsistency
          confidence := (manipConfidence response : ℚ)
          description := "General manipulation indicator detected" }) ∧
    (parseManipulationResponse response videoDuration rnd).anomalies.length =
      manipConfidence response / 25 ∧
    (parseManipulationResponse response videoDuration rnd).anomalies ≠ [] := by
  have hcond : (manipTimestampAnomalies response videoDuration rnd).length = 0 ∧
      manipConfidence response > 50 := ⟨hempty, hconf⟩
  have hmain : (parseManipulationResponse response videoDuration rnd).anomalies =
      (List.range (manipConfidence response / 25)).map (fun i =>
        { timestamp := (videoDuration / ((manipConfidence response / 25 : ℕ) + 1)) *
            ((i : ℚ) + 1)
          duration := 2
          type := AnomalyType.temporal_inconsistency
          confidence := (manipConfidence response : ℚ)
          description := "General manipulation indicator detected" }) := by
    simp only [parseManipulationResponse, if_pos hcond]
  have hdiv : 2 ≤ manipConfidence response / 25 :=
    (Nat.le_div_iff_mul_le (by norm_num)).mpr (by omega)
  have hlen : (parseManipulationResponse response videoDuration rnd).anomalies.length =
      manipConfidence response / 25 := by
    rw [hmain]
    simp
  refine ⟨hmain, hlen, ?_⟩
  intro hnil
  rw [hnil] at hlen
  simp at hlen
  omega

/-- Witness for C9 on `"confidence: 80"` (no timestamps, confidence 80):
three synthesized anomalies. -/
theorem fallback_anomaly_synthesis_witness :
    (parseManipulationResponse "confidence: 80" 60 (fun _ => 0)).anomalies.length = 3 ∧
    (parseManipulationResponse "confidence: 80" 60 (fun _ => 0)).anomalies ≠ [] := by
  have hts : manipTimestampAnomalies "confidence: 80" 60 (fun _ => 0) = [] := rfl
  have hconf : manipConfidence "confidence: 80" = 80 := rfl
  obtain ⟨_, hlen, hne⟩ := fallback_anomaly_synthesis "confidence: 80" 60 (fun _ => 0)
    (by rw [hts]; rfl) (by rw [hconf]; norm_num)
  rw [hconf] at hlen
  exact ⟨hlen, hne⟩
